import Mathlib

/-!
Shallow embedding of `src/bookstore_manager.py` (a single-file SQLite
bookstore manager) and proofs about its core sale operations.

The relational store (tables `member`, `book`, `sale`) is modelled as lists
of rows plus the `sqlite_sequence` counter for the AUTOINCREMENT `sale.sid`
column.  SQL `SELECT ... WHERE ... LIMIT/fetchone` becomes `List.find?`,
`UPDATE ... WHERE` becomes a `List.map` over matching rows, and
`DELETE ... WHERE` becomes `List.filter`.  The sqlite connection with its
explicit `BEGIN` / `commit` / `rollback` is modelled by a committed store
plus an optional in-transaction pending store; a failure oracle stands for
`sqlite3.Error` being raised by a write statement.
-/

namespace Bookstore

/-- A row of the `member` table (`mid TEXT PRIMARY KEY, mname, mphone, memail`). -/
structure Member where
  mid : String
  mname : String
  mphone : String
  memail : Option String
deriving Repr, DecidableEq

/-- A row of the `book` table (`bid TEXT PRIMARY KEY, btitle, bprice INTEGER, bstock INTEGER`). -/
structure Book where
  bid : String
  btitle : String
  bprice : Int
  bstock : Int
deriving Repr, DecidableEq

/-- A row of the `sale` table
(`sid INTEGER PRIMARY KEY AUTOINCREMENT, sdate, mid, bid, sqty, sdiscount, stotal`). -/
structure Sale where
  sid : Nat
  sdate : String
  mid : String
  bid : String
  sqty : Int
  sdiscount : Int
  stotal : Int
deriving Repr, DecidableEq

/-- The whole database: the three tables plus the `sqlite_sequence` counter
for the AUTOINCREMENT `sale.sid` column. -/
structure Store where
  members : List Member
  books : List Book
  sales : List Sale
  seq : Nat
deriving Repr, DecidableEq

/-- `SELECT * FROM member WHERE mid = ?` followed by `fetchone()`. -/
def findMember (st : Store) (mid : String) : Option Member :=
  st.members.find? (fun m => m.mid == mid)

/-- `SELECT * FROM book WHERE bid = ?` followed by `fetchone()`. -/
def findBook (st : Store) (bid : String) : Option Book :=
  st.books.find? (fun b => b.bid == bid)

/-- `SELECT ... FROM sale ... WHERE sale.sid = ?` followed by `fetchone()`. -/
def findSale (st : Store) (sid : Nat) : Option Sale :=
  st.sales.find? (fun s => s.sid == sid)

/-- Largest `sid` currently present in the `sale` table (0 when empty). -/
def maxSid (sales : List Sale) : Nat :=
  sales.foldr (fun s acc => max s.sid acc) 0

/-- The rowid AUTOINCREMENT assigns to the next inserted sale: one more than
the larger of the `sqlite_sequence` entry and the largest `sid` in the table. -/
def nextSid (st : Store) : Nat :=
  max st.seq (maxSid st.sales) + 1

/-- The error kinds the engine reports (the Python code returns them as
`(False, message)` pairs or printed messages). -/
inductive SaleError where
  /-- "member or book id invalid" -/
  | invalidReference
  /-- "insufficient stock", carrying the current stock for display -/
  | insufficientStock (currentStock : Int)
  /-- update flow: the re-queried sale record was not found -/
  | notFound
  /-- an `sqlite3.Error` was raised during the write transaction -/
  | storageError
  /-- interactive list selection: no sale records to choose from -/
  | noRecords
  /-- interactive list selection: the entered number is out of range -/
  | invalidChoice
deriving Repr, DecidableEq

/-- Point at which the failure oracle makes a write statement raise
`sqlite3.Error` inside the add-sale transaction. -/
inductive TxnFail where
  | atInsert
  | atUpdate
deriving Repr, DecidableEq

/-- The sqlite connection: the committed database plus, while a transaction
is open, the pending (uncommitted) view of the database. -/
structure Conn where
  committed : Store
  pending : Option Store
deriving Repr, DecidableEq

/-- `conn.execute("BEGIN")`: open a transaction whose working copy starts
from the committed state. -/
def Conn.beginTxn (c : Conn) : Conn :=
  { c with pending := some c.committed }

/-- The state statements currently read/write: the pending copy inside a
transaction, the committed state otherwise. -/
def Conn.current (c : Conn) : Store :=
  c.pending.getD c.committed

/-- Execute a write statement: inside a transaction it only touches the
pending copy; outside, sqlite autocommits it. -/
def Conn.write (c : Conn) (f : Store → Store) : Conn :=
  match c.pending with
  | some p => { c with pending := some (f p) }
  | none => { c with committed := f c.committed }

/-- `conn.commit()`: publish the pending copy as the committed state. -/
def Conn.commitTxn (c : Conn) : Conn :=
  match c.pending with
  | some p => { committed := p, pending := none }
  | none => c

/-- `conn.rollback()`: discard the pending copy. -/
def Conn.rollbackTxn (c : Conn) : Conn :=
  { c with pending := none }

/-- `INSERT INTO sale (sdate, mid, bid, sqty, sdiscount, stotal) VALUES (...)`:
AUTOINCREMENT assigns `nextSid` and updates `sqlite_sequence`. -/
def insertSaleRow (sdate mid bid : String) (sqty sdiscount stotal : Int)
    (st : Store) : Store :=
  let sid := nextSid st
  { st with
      sales := st.sales ++ [⟨sid, sdate, mid, bid, sqty, sdiscount, stotal⟩],
      seq := sid }

/-- `UPDATE book SET bstock = bstock - ? WHERE bid = ?`. -/
def decrementStock (bid : String) (sqty : Int) (st : Store) : Store :=
  { st with
      books := st.books.map (fun b =>
        if b.bid == bid then { b with bstock := b.bstock - sqty } else b) }

/-- `add_sale(conn, sdate, mid, bid, sqty, sdiscount)` over the connection
model, with a failure oracle `fail` saying which write statement (if any)
raises `sqlite3.Error`.  Mirrors the Python control flow: look up member and
book, reject invalid references, reject insufficient stock, compute the
total, then `BEGIN`; insert the sale row; decrement the stock; `commit` —
and on a raised error, `rollback` and report a storage error. -/
def addSaleConn (c : Conn) (sdate mid bid : String) (sqty sdiscount : Int)
    (fail : Option TxnFail) : Conn × Except SaleError Int :=
  match findMember c.current mid, findBook c.current bid with
  | none, _ => (c, .error .invalidReference)
  | some _, none => (c, .error .invalidReference)
  | some _, some book =>
    if book.bstock < sqty then
      (c, .error (.insufficientStock book.bstock))
    else
      let stotal := book.bprice * sqty - sdiscount
      let c1 := c.beginTxn
      if fail = some TxnFail.atInsert then
        (c1.rollbackTxn, .error .storageError)
      else
        let c2 := c1.write (insertSaleRow sdate mid bid sqty sdiscount stotal)
        if fail = some TxnFail.atUpdate then
          (c2.rollbackTxn, .error .storageError)
        else
          let c3 := c2.write (decrementStock bid sqty)
          (c3.commitTxn, .ok stotal)

/-- `add_sale` as the store-level operation (no storage failure): the
connection starts outside a transaction and the committed result is
returned together with the outcome.  On success the payload is the computed
total `bprice * sqty - sdiscount`. -/
def addSale (st : Store) (sdate mid bid : String) (sqty sdiscount : Int) :
    Store × Except SaleError Int :=
  ((addSaleConn ⟨st, none⟩ sdate mid bid sqty sdiscount none).1.committed,
   (addSaleConn ⟨st, none⟩ sdate mid bid sqty sdiscount none).2)

/-- The quantity check the menu controller (function `main`) performs before
ever calling `add_sale`: it re-prompts unless `sqty > 0`. -/
def menuQtyAccepted (sqty : Int) : Bool :=
  decide (0 < sqty)

/-! ### update_sale / delete_sale / report -/

/-- The sale listing both `update_sale` and `delete_sale` display:
`SELECT sale.sid, member.mname, sale.sdate FROM sale JOIN member ON
sale.mid = member.mid ORDER BY sale.sid`. -/
def saleListing (st : Store) : List (Nat × String × String) :=
  (List.insertionSort (fun a b : Sale => a.sid ≤ b.sid) st.sales).filterMap
    (fun s => (findMember st s.mid).map (fun m => (s.sid, m.mname, s.sdate)))

/-- The core of `update_sale` once a sale id has been chosen: re-query the
sale joined with its book (`SELECT sale.sid, sale.sqty, book.bprice FROM
sale JOIN book ON sale.bid = book.bid WHERE sale.sid = ?`), report the
record as not found when the query returns nothing, otherwise recompute
`new_total = bprice * sqty - new_discount` from the sale's stored quantity
and the book's current price and write discount and total back
(`UPDATE sale SET sdiscount = ?, stotal = ? WHERE sid = ?`).  On success
the payload is the updated sale id with the new total. -/
def updateSale (st : Store) (sid : Nat) (newDiscount : Int) :
    Store × Except SaleError (Nat × Int) :=
  match findSale st sid with
  | none => (st, .error .notFound)
  | some sale =>
    match findBook st sale.bid with
    | none => (st, .error .notFound)
    | some book =>
      let newTotal := book.bprice * sale.sqty - newDiscount
      ({ st with
          sales := st.sales.map (fun s =>
            if s.sid == sid then { s with sdiscount := newDiscount, stotal := newTotal } else s) },
       .ok (sid, newTotal))

/-- The deletion statement of `delete_sale` executed for a given sale id:
`DELETE FROM sale WHERE sid = ?` followed by `conn.commit()`.  It performs
no existence check: it removes whatever rows match and reports success
carrying the id it was given. -/
def deleteSaleBySid (st : Store) (sid : Nat) : Store × Except SaleError Nat :=
  ({ st with sales := st.sales.filter (fun s => !(s.sid == sid)) }, .ok sid)

/-- `delete_sale` as the code runs it: display the listing (empty listing
aborts with a "no records" message), validate the entered number against
the listing's range (out-of-range input is rejected), resolve the chosen
row's `sid`, and run the deletion statement. -/
def deleteSale (st : Store) (choice : Nat) : Store × Except SaleError Nat :=
  if saleListing st = [] then
    (st, .error .noRecords)
  else if choice < 1 ∨ (saleListing st).length < choice then
    (st, .error .invalidChoice)
  else
    deleteSaleBySid st ((saleListing st).getD (choice - 1) (0, "", "")).1

/-- One row of the sale report: exactly the columns `print_sale_report`
selects (`s.sid, s.sdate, m.mname, b.btitle, b.bprice, s.sqty, s.sdiscount,
s.stotal`). -/
structure ReportRow where
  sid : Nat
  sdate : String
  mname : String
  btitle : String
  bprice : Int
  sqty : Int
  sdiscount : Int
  stotal : Int
deriving Repr, DecidableEq

/-- The report query's join of one sale with its member and book rows;
`none` when either join partner is missing (the SQL inner join drops the
sale in that case). -/
def joinRow (st : Store) (s : Sale) : Option ReportRow :=
  match findMember st s.mid, findBook st s.bid with
  | some m, some b =>
    some ⟨s.sid, s.sdate, m.mname, b.btitle, b.bprice, s.sqty, s.sdiscount, s.stotal⟩
  | _, _ => none

/-- `enumerate(sales, start=1)`: pair each row with its 1-based position. -/
def numberFrom (n : Nat) : List ReportRow → List (Nat × ReportRow)
  | [] => []
  | r :: rs => (n, r) :: numberFrom (n + 1) rs

/-- The rows `print_sale_report` iterates over: the member/book join of all
sales ordered by `sid` (`ORDER BY s.sid`), each paired with its 1-based
sequence number from `enumerate(..., start=1)`.  The function only reads;
it never writes the store. -/
def generateSaleReport (st : Store) : List (Nat × ReportRow) :=
  numberFrom 1
    ((List.insertionSort (fun a b : Sale => a.sid ≤ b.sid) st.sales).filterMap (joinRow st))

/-! ### Seed data (`initialize_db`) -/

/-- Seed rows of the `member` table. -/
def seedMembers : List Member :=
  [⟨"M001", "Alice", "0912-345678", some "alice@example.com"⟩,
   ⟨"M002", "Bob", "0923-456789", some "bob@example.com"⟩,
   ⟨"M003", "Cathy", "0934-567890", some "cathy@example.com"⟩]

/-- Seed rows of the `book` table. -/
def seedBooks : List Book :=
  [⟨"B001", "Python Programming", 600, 50⟩,
   ⟨"B002", "Data Science Basics", 800, 30⟩,
   ⟨"B003", "Machine Learning Guide", 1200, 20⟩]

/-- Seed rows of the `sale` table. -/
def seedSales : List Sale :=
  [⟨1, "2024-01-15", "M001", "B001", 2, 100, 1100⟩,
   ⟨2, "2024-01-16", "M002", "B002", 1, 50, 750⟩,
   ⟨3, "2024-01-17", "M001", "B003", 3, 200, 3400⟩,
   ⟨4, "2024-01-18", "M003", "B001", 1, 0, 600⟩]

/-- The database right after `initialize_db` on a fresh file: the seed rows,
with `sqlite_sequence` at 4 (the largest explicitly inserted `sid`). -/
def initStore : Store :=
  ⟨seedMembers, seedBooks, seedSales, 4⟩

/-! ### The menu loop as a transition system -/

/-- One core operation the menu loop can dispatch. -/
inductive Op where
  | add (sdate mid bid : String) (sqty sdiscount : Int) (fail : Option TxnFail)
  | update (sid : Nat) (newDiscount : Int)
  | delete (choice : Nat)
  | report
deriving Repr, DecidableEq

/-- The committed store after one menu operation (`print_sale_report` only
reads, so it leaves the store as it is). -/
def applyOp (st : Store) : Op → Store
  | .add sdate mid bid sqty sdiscount fail =>
    ((addSaleConn ⟨st, none⟩ sdate mid bid sqty sdiscount fail).1).committed
  | .update sid newDiscount => (updateSale st sid newDiscount).1
  | .delete choice => (deleteSale st choice).1
  | .report => st

/-- The stores the program can be in: the seeded database, closed under the
menu operations. -/
inductive Reachable : Store → Prop
  | init : Reachable initStore
  | step {st : Store} (op : Op) : Reachable st → Reachable (applyOp st op)

/-- A store like the seeded one but whose sale ids are the gapped set
{1, 3, 4} (as if sale 2 had been deleted). -/
def gapStore : Store :=
  { initStore with sales :=
      [⟨1, "2024-01-15", "M001", "B001", 2, 100, 1100⟩,
       ⟨3, "2024-01-17", "M001", "B003", 3, 200, 3400⟩,
       ⟨4, "2024-01-18", "M003", "B001", 1, 0, 600⟩] }

/-- The stock invariant together with the `book.bid PRIMARY KEY` schema
constraint, stated over the list model. -/
def Inv (st : Store) : Prop :=
  (st.books.map Book.bid).Nodup ∧ ∀ b ∈ st.books, 0 ≤ b.bstock

instance : IsTotal Sale (fun a b => a.sid ≤ b.sid) :=
  ⟨fun a b => Nat.le_total a.sid b.sid⟩

instance : IsTrans Sale (fun a b => a.sid ≤ b.sid) :=
  ⟨fun _ _ _ hab hbc => Nat.le_trans hab hbc⟩

/-! ### General list lemmas -/

theorem find?_map_if {α : Type} (p : α → Bool) (f : α → α)
    (hp : ∀ a, p (f a) = p a) :
    ∀ (l : List α) (b : α), l.find? p = some b →
      (l.map (fun a => if p a then f a else a)).find? p = some (f b) := by
  intro l
  induction l with
  | nil => intro b h; simp at h
  | cons a l ih =>
    intro b h
    by_cases ha : p a
    · rw [List.find?_cons_of_pos _ ha] at h
      injection h with h'
      subst h'
      rw [List.map_cons, if_pos ha]
      exact List.find?_cons_of_pos _ (by rw [hp]; exact ha)
    · rw [List.find?_cons_of_neg _ ha] at h
      rw [List.map_cons, if_neg ha, List.find?_cons_of_neg _ ha]
      exact ih b h

theorem length_filterMap_of_isSome {α β : Type} (f : α → Option β) :
    ∀ l : List α, (∀ x ∈ l, (f x).isSome) → (l.filterMap f).length = l.length := by
  intro l
  induction l with
  | nil => intro _; rfl
  | cons a l ih =>
    intro h
    rcases hfa : f a with _ | b
    · have := h a (List.mem_cons_self a l)
      rw [hfa] at this
      simp at this
    · rw [List.filterMap_cons_some hfa, List.length_cons, List.length_cons,
        ih (fun x hx => h x (List.mem_cons_of_mem a hx))]

theorem pairwise_filterMap_of {α β : Type} (f : α → Option β) (r : α → α → Prop)
    (r' : β → β → Prop)
    (H : ∀ a a' b b', r a a' → f a = some b → f a' = some b' → r' b b') :
    ∀ l : List α, l.Pairwise r → (l.filterMap f).Pairwise r' := by
  intro l
  induction l with
  | nil => intro _; simp
  | cons a l ih =>
    intro h
    rcases List.pairwise_cons.mp h with ⟨h1, h2⟩
    rcases hfa : f a with _ | b
    · rw [List.filterMap_cons_none hfa]
      exact ih h2
    · rw [List.filterMap_cons_some hfa]
      refine List.pairwise_cons.mpr ⟨?_, ih h2⟩
      intro b' hb'
      rcases List.mem_filterMap.mp hb' with ⟨a', ha', hfa'⟩
      exact H a a' b b' (h1 a' ha') hfa hfa'

/-! ### Lemmas about the embedded operations -/

theorem sid_le_maxSid : ∀ {l : List Sale} {s : Sale}, s ∈ l → s.sid ≤ maxSid l := by
  intro l
  induction l with
  | nil => intro s h; cases h
  | cons a l ih =>
    intro s h
    rcases List.mem_cons.mp h with rfl | h'
    · exact le_max_left _ _
    · exact le_trans (ih h') (le_max_right _ _)

theorem sid_lt_nextSid {st : Store} {s : Sale} (h : s ∈ st.sales) :
    s.sid < nextSid st :=
  Nat.lt_succ_of_le (le_trans (sid_le_maxSid h) (le_max_right _ _))

theorem numberFrom_length : ∀ (n : Nat) (l : List ReportRow),
    (numberFrom n l).length = l.length
  | _, [] => rfl
  | n, _ :: rs => by
    simp only [numberFrom, List.length_cons, numberFrom_length (n + 1) rs]

theorem numberFrom_map_snd : ∀ (n : Nat) (l : List ReportRow),
    (numberFrom n l).map Prod.snd = l
  | _, [] => rfl
  | n, r :: rs => by
    simp only [numberFrom, List.map_cons, numberFrom_map_snd (n + 1) rs]

theorem numberFrom_map_fst : ∀ (n : Nat) (l : List ReportRow),
    (numberFrom n l).map Prod.fst = List.range' n l.length
  | _, [] => rfl
  | n, r :: rs => by
    simp only [numberFrom, List.map_cons, List.length_cons, List.range'_succ,
      numberFrom_map_fst (n + 1) rs]

theorem numberFrom_pairwise {R : ReportRow → ReportRow → Prop} :
    ∀ (n : Nat) (l : List ReportRow), l.Pairwise R →
      (numberFrom n l).Pairwise (fun p q => R p.2 q.2)
  | _, [], _ => by simp [numberFrom]
  | n, r :: rs, h => by
    rcases List.pairwise_cons.mp h with ⟨h1, h2⟩
    refine List.pairwise_cons.mpr ⟨?_, numberFrom_pairwise (n + 1) rs h2⟩
    intro q hq
    have hq2 : q.2 ∈ rs := by
      have hmem := List.mem_map_of_mem Prod.snd hq
      rwa [numberFrom_map_snd] at hmem
    exact h1 _ hq2

theorem joinRow_sid {st : Store} {s : Sale} {r : ReportRow}
    (h : joinRow st s = some r) : r.sid = s.sid := by
  unfold joinRow at h
  rcases hm : findMember st s.mid with _ | m <;> rw [hm] at h
  · cases h
  · rcases hb : findBook st s.bid with _ | b <;> rw [hb] at h
    · cases h
    · injection h with h'
      subst h'
      rfl

theorem addSaleConn_none_member {c : Conn} {sdate mid bid : String}
    {sqty sdiscount : Int} {fail : Option TxnFail}
    (hm : findMember c.current mid = none) :
    addSaleConn c sdate mid bid sqty sdiscount fail =
      (c, .error .invalidReference) := by
  unfold addSaleConn
  rw [hm]

theorem addSaleConn_none_book {c : Conn} {sdate mid bid : String}
    {sqty sdiscount : Int} {fail : Option TxnFail} {m : Member}
    (hm : findMember c.current mid = some m)
    (hb : findBook c.current bid = none) :
    addSaleConn c sdate mid bid sqty sdiscount fail =
      (c, .error .invalidReference) := by
  unfold addSaleConn
  rw [hm, hb]

theorem addSaleConn_insufficient {c : Conn} {sdate mid bid : String}
    {sqty sdiscount : Int} {fail : Option TxnFail} {m : Member} {book : Book}
    (hm : findMember c.current mid = some m)
    (hb : findBook c.current bid = some book)
    (hq : book.bstock < sqty) :
    addSaleConn c sdate mid bid sqty sdiscount fail =
      (c, .error (.insufficientStock book.bstock)) := by
  unfold addSaleConn
  rw [hm, hb]
  simp only [if_pos hq]

theorem addSaleConn_fail {c : Conn} {sdate mid bid : String}
    {sqty sdiscount : Int} {m : Member} {book : Book} {tf : TxnFail}
    (hm : findMember c.current mid = some m)
    (hb : findBook c.current bid = some book)
    (hq : ¬ book.bstock < sqty) :
    addSaleConn c sdate mid bid sqty sdiscount (some tf) =
      (⟨c.committed, none⟩, .error .storageError) := by
  unfold addSaleConn
  rw [hm, hb]
  cases tf with
  | atInsert =>
    simp only [if_neg hq, if_pos rfl]
    rfl
  | atUpdate =>
    simp only [if_neg hq, if_neg (by simp : ¬ (some TxnFail.atUpdate = some TxnFail.atInsert)),
      if_pos rfl]
    rfl

theorem addSaleConn_ok {c : Conn} {sdate mid bid : String}
    {sqty sdiscount : Int} {m : Member} {book : Book}
    (hm : findMember c.current mid = some m)
    (hb : findBook c.current bid = some book)
    (hq : ¬ book.bstock < sqty) :
    addSaleConn c sdate mid bid sqty sdiscount none =
      (((c.beginTxn.write
          (insertSaleRow sdate mid bid sqty sdiscount
            (book.bprice * sqty - sdiscount))).write
          (decrementStock bid sqty)).commitTxn,
       .ok (book.bprice * sqty - sdiscount)) := by
  unfold addSaleConn
  rw [hm, hb]
  simp only [if_neg hq, if_neg (by simp : ¬ ((none : Option TxnFail) = some TxnFail.atInsert)),
    if_neg (by simp : ¬ ((none : Option TxnFail) = some TxnFail.atUpdate))]

theorem addSale_ok {st : Store} {sdate mid bid : String}
    {sqty sdiscount : Int} {m : Member} {book : Book}
    (hm : findMember st mid = some m)
    (hb : findBook st bid = some book)
    (hq : sqty ≤ book.bstock) :
    addSale st sdate mid bid sqty sdiscount =
      (decrementStock bid sqty
        (insertSaleRow sdate mid bid sqty sdiscount
          (book.bprice * sqty - sdiscount) st),
       .ok (book.bprice * sqty - sdiscount)) := by
  have hq' : ¬ book.bstock < sqty := not_lt.mpr hq
  unfold addSale
  rw [addSaleConn_ok (c := ⟨st, none⟩) hm hb hq']
  rfl

theorem updateSale_books (st : Store) (sid : Nat) (d : Int) :
    (updateSale st sid d).1.books = st.books := by
  unfold updateSale
  rcases hs : findSale st sid with _ | sale
  · rfl
  · dsimp only
    rcases hb : findBook st sale.bid with _ | b <;> rfl

theorem updateSale_members (st : Store) (sid : Nat) (d : Int) :
    (updateSale st sid d).1.members = st.members := by
  unfold updateSale
  rcases hs : findSale st sid with _ | sale
  · rfl
  · dsimp only
    rcases hb : findBook st sale.bid with _ | b <;> rfl

theorem deleteSale_books (st : Store) (choice : Nat) :
    (deleteSale st choice).1.books = st.books := by
  unfold deleteSale deleteSaleBySid
  split
  · rfl
  · split <;> rfl

theorem decrementStock_map_bid (bid : String) (sqty : Int) (st : Store) :
    (decrementStock bid sqty st).books.map Book.bid = st.books.map Book.bid := by
  unfold decrementStock
  rw [List.map_map]
  apply List.map_congr_left
  intro a _
  show (if (a.bid == bid) = true then _ else a).bid = a.bid
  split <;> rfl

theorem inv_decrementStock {st : Store} {bid : String} {sqty : Int} {book : Book}
    (h : Inv st) (hb : findBook st bid = some book)
    (hq : ¬ book.bstock < sqty) : Inv (decrementStock bid sqty st) := by
  have hb' : st.books.find? (fun b => b.bid == bid) = some book := hb
  have hbookmem : book ∈ st.books := List.mem_of_find?_eq_some hb'
  have hbookbid : (book.bid == bid) = true := by
    have h2 := List.find?_some hb'
    exact h2
  refine ⟨by rw [decrementStock_map_bid]; exact h.1, ?_⟩
  intro b' hb'
  rcases List.mem_map.mp hb' with ⟨b0, hb0, rfl⟩
  by_cases h0 : (b0.bid == bid) = true
  · have hbb : b0 = book := by
      refine List.inj_on_of_nodup_map h.1 hb0 hbookmem ?_
      rw [beq_iff_eq] at h0 hbookbid
      rw [h0, hbookbid]
    rw [hbb, if_pos hbookbid]
    exact sub_nonneg.mpr (not_lt.mp hq)
  · rw [if_neg h0]
    exact h.2 b0 hb0

theorem inv_insertSaleRow {st : Store} (sdate mid bid : String)
    (sqty sdiscount stotal : Int) (h : Inv st) :
    Inv (insertSaleRow sdate mid bid sqty sdiscount stotal st) :=
  h

theorem inv_applyOp (st : Store) (op : Op) (h : Inv st) : Inv (applyOp st op) := by
  cases op with
  | report => exact h
  | update sid d =>
    show Inv ((updateSale st sid d).1)
    refine ⟨?_, ?_⟩ <;> rw [updateSale_books]
    · exact h.1
    · exact h.2
  | delete choice =>
    show Inv ((deleteSale st choice).1)
    refine ⟨?_, ?_⟩ <;> rw [deleteSale_books]
    · exact h.1
    · exact h.2
  | add sdate mid bid sqty sdiscount fail =>
    show Inv ((addSaleConn ⟨st, none⟩ sdate mid bid sqty sdiscount fail).1.committed)
    rcases hm : findMember st mid with _ | m
    · rw [addSaleConn_none_member (c := ⟨st, none⟩) hm]
      exact h
    · rcases hb : findBook st bid with _ | book
      · rw [addSaleConn_none_book (c := ⟨st, none⟩) hm hb]
        exact h
      · by_cases hq : book.bstock < sqty
        · rw [addSaleConn_insufficient (c := ⟨st, none⟩) hm hb hq]
          exact h
        · rcases fail with _ | tf
          · rw [addSaleConn_ok (c := ⟨st, none⟩) hm hb hq]
            exact inv_decrementStock (inv_insertSaleRow sdate mid bid sqty sdiscount _ h) hb hq
          · rw [addSaleConn_fail (c := ⟨st, none⟩) hm hb hq]
            exact h

theorem inv_init : Inv initStore := by
  constructor
  · decide
  · decide

theorem inv_reachable {st : Store} (h : Reachable st) : Inv st := by
  induction h with
  | init => exact inv_init
  | step op _ ih => exact inv_applyOp _ op ih

theorem updateSale_ok {st : Store} {sid : Nat} {d : Int} {sale : Sale} {book : Book}
    (hs : findSale st sid = some sale) (hb : findBook st sale.bid = some book) :
    updateSale st sid d =
      ({ st with sales := st.sales.map (fun s =>
          if s.sid == sid then
            { s with sdiscount := d, stotal := book.bprice * sale.sqty - d }
          else s) },
       .ok (sid, book.bprice * sale.sqty - d)) := by
  unfold updateSale
  rw [hs]
  dsimp only
  rw [hb]

theorem saleListing_sid_mem {st : Store} {p : Nat × String × String}
    (h : p ∈ saleListing st) : p.1 ∈ st.sales.map Sale.sid := by
  unfold saleListing at h
  rcases List.mem_filterMap.mp h with ⟨s, hs, hp⟩
  have hs' : s ∈ st.sales := (List.perm_insertionSort _ _).mem_iff.mp hs
  rcases hm : findMember st s.mid with _ | m <;> rw [hm] at hp
  · cases hp
  · injection hp with hp'
    subst hp'
    exact List.mem_map.mpr ⟨s, hs', rfl⟩

theorem length_filter_sid_ne {sid : Nat} :
    ∀ l : List Sale, (l.map Sale.sid).Nodup → sid ∈ l.map Sale.sid →
      (l.filter (fun s => !(s.sid == sid))).length + 1 = l.length := by
  intro l
  induction l with
  | nil =>
    intro _ h
    simp at h
  | cons a l ih =>
    intro hnd hmem
    rw [List.map_cons] at hnd hmem
    rcases List.nodup_cons.mp hnd with ⟨hna, hnd'⟩
    rcases List.mem_cons.mp hmem with heq | hmem'
    · subst heq
      rw [List.filter_cons, if_neg (by simp)]
      have hall : l.filter (fun s => !(s.sid == a.sid)) = l := by
        apply List.filter_eq_self.mpr
        intro s hs
        simp only [Bool.not_eq_true', beq_eq_false_iff_ne]
        intro hcontra
        exact hna (hcontra ▸ List.mem_map.mpr ⟨s, hs, rfl⟩)
      rw [hall, List.length_cons]
    · have hane : ¬ (a.sid == sid) = true := by
        rw [beq_iff_eq]
        intro hc
        exact hna (hc ▸ hmem')
      rw [List.filter_cons, if_pos (by simp only [Bool.not_eq_true']; simpa using hane),
        List.length_cons, List.length_cons]
      rw [ih hnd' hmem']

/-! ### Claim theorems -/

/-- C1: whenever the member and book exist and the requested quantity is at
most the book's current stock, `add_sale` succeeds returning the total
`bprice * sqty - sdiscount` (plain integer arithmetic, no clamp), appends
exactly one new sale row carrying that total, decrements that book's stock
by exactly `sqty`, and assigns the new row a sale id strictly greater than
every previously existing sale id. -/
theorem c1_add_sale_success (st : Store) (sdate mid bid : String)
    (sqty sdiscount : Int) (m : Member) (book : Book)
    (hm : findMember st mid = some m) (hb : findBook st bid = some book)
    (hq : sqty ≤ book.bstock) :
    (addSale st sdate mid bid sqty sdiscount).2 =
      Except.ok (book.bprice * sqty - sdiscount) ∧
    (addSale st sdate mid bid sqty sdiscount).1.sales =
      st.sales ++ [⟨nextSid st, sdate, mid, bid, sqty, sdiscount,
        book.bprice * sqty - sdiscount⟩] ∧
    findBook (addSale st sdate mid bid sqty sdiscount).1 bid =
      some { book with bstock := book.bstock - sqty } ∧
    (∀ s ∈ st.sales, s.sid < nextSid st) := by
  rw [addSale_ok hm hb hq]
  refine ⟨rfl, rfl, ?_, fun s hs => sid_lt_nextSid hs⟩
  have hb' : st.books.find? (fun b => b.bid == bid) = some book := hb
  exact find?_map_if (fun b => b.bid == bid)
    (fun b => { b with bstock := b.bstock - sqty }) (fun a => rfl) st.books book hb'

/-- Witness for C1: the spec's worked example — seed store, member M001,
book B001 (price 600, stock 50), quantity 2, discount 100: total 1100,
stock becomes 48. -/
theorem c1_add_sale_success_witness :
    (addSale initStore "2024-02-01" "M001" "B001" 2 100).2 = Except.ok 1100 ∧
    findBook (addSale initStore "2024-02-01" "M001" "B001" 2 100).1 "B001" =
      some ⟨"B001", "Python Programming", 600, 48⟩ := by
  have h := c1_add_sale_success initStore "2024-02-01" "M001" "B001" 2 100
    ⟨"M001", "Alice", "0912-345678", some "alice@example.com"⟩
    ⟨"B001", "Python Programming", 600, 50⟩ rfl rfl (by decide)
  exact ⟨h.1, h.2.2.1⟩

/-- C3: when the member id or the book id does not resolve to a row,
`add_sale` reports the shared invalid-reference error and the whole store
(members, books, sales, sequence counter) is unchanged. -/
theorem c3_add_sale_invalid_reference (st : Store) (sdate mid bid : String)
    (sqty sdiscount : Int)
    (h : findMember st mid = none ∨ findBook st bid = none) :
    addSale st sdate mid bid sqty sdiscount =
      (st, Except.error SaleError.invalidReference) := by
  unfold addSale
  rcases h with h | h
  · rw [addSaleConn_none_member (c := ⟨st, none⟩) h]
  · rcases hm : findMember st mid with _ | m
    · rw [addSaleConn_none_member (c := ⟨st, none⟩) hm]
    · rw [addSaleConn_none_book (c := ⟨st, none⟩) hm h]

/-- Witness for C3: unknown member id M999 on the seed store. -/
theorem c3_add_sale_invalid_reference_witness :
    addSale initStore "2024-02-01" "M999" "B001" 2 100 =
      (initStore, Except.error SaleError.invalidReference) :=
  c3_add_sale_invalid_reference initStore "2024-02-01" "M999" "B001" 2 100
    (Or.inl rfl)

/-- C4: when the member and book exist but the requested quantity exceeds
the current stock, `add_sale` reports insufficient stock carrying the exact
current stock value, and the store is unchanged. -/
theorem c4_add_sale_insufficient_stock (st : Store) (sdate mid bid : String)
    (sqty sdiscount : Int) (m : Member) (book : Book)
    (hm : findMember st mid = some m) (hb : findBook st bid = some book)
    (hq : book.bstock < sqty) :
    addSale st sdate mid bid sqty sdiscount =
      (st, Except.error (SaleError.insufficientStock book.bstock)) := by
  unfold addSale
  rw [addSaleConn_insufficient (c := ⟨st, none⟩) hm hb hq]

/-- Witness for C4: the spec's example — quantity 999 against B001's stock
of 50 fails carrying 50, store unchanged. -/
theorem c4_add_sale_insufficient_stock_witness :
    addSale initStore "2024-02-01" "M001" "B001" 999 0 =
      (initStore, Except.error (SaleError.insufficientStock 50)) :=
  c4_add_sale_insufficient_stock initStore "2024-02-01" "M001" "B001" 999 0
    ⟨"M001", "Alice", "0912-345678", some "alice@example.com"⟩
    ⟨"B001", "Python Programming", 600, 50⟩ rfl rfl (by decide)

/-- C10: `add_sale` itself never checks that the quantity is positive: for
any integer quantity at most the stock — zero and negative included — it
succeeds, records the quantity in the new sale row, and sets the stock to
`stock - sqty`, which strictly increases the stock when `sqty` is negative;
the positivity rule lives only in the menu controller's input loop. -/
theorem c10_add_sale_no_positivity_check (st : Store) (sdate mid bid : String)
    (sqty sdiscount : Int) (m : Member) (book : Book)
    (hm : findMember st mid = some m) (hb : findBook st bid = some book)
    (hq : sqty ≤ book.bstock) :
    (addSale st sdate mid bid sqty sdiscount).2 =
      Except.ok (book.bprice * sqty - sdiscount) ∧
    (addSale st sdate mid bid sqty sdiscount).1.sales =
      st.sales ++ [⟨nextSid st, sdate, mid, bid, sqty, sdiscount,
        book.bprice * sqty - sdiscount⟩] ∧
    findBook (addSale st sdate mid bid sqty sdiscount).1 bid =
      some { book with bstock := book.bstock - sqty } ∧
    (sqty < 0 → book.bstock < book.bstock - sqty) ∧
    (sqty ≤ 0 → menuQtyAccepted sqty = false) := by
  rw [addSale_ok hm hb hq]
  refine ⟨rfl, rfl, ?_, ?_, ?_⟩
  · have hb' : st.books.find? (fun b => b.bid == bid) = some book := hb
    exact find?_map_if (fun b => b.bid == bid)
      (fun b => { b with bstock := b.bstock - sqty }) (fun a => rfl) st.books book hb'
  · intro hneg
    omega
  · intro hle
    unfold menuQtyAccepted
    simp only [decide_eq_false_iff_not]
    omega

/-- C2: the sale insert and the stock decrement form one atomic unit. Over
the connection model with a failure oracle: the transaction is always
closed when `add_sale` returns; on any error result the committed store is
exactly the original one (the rollback discarded the partial write); and on
success the committed store carries exactly both writes, the inserted sale
row and the decremented stock, together. -/
theorem c2_add_sale_atomicity (st : Store) (sdate mid bid : String)
    (sqty sdiscount : Int) (fail : Option TxnFail) :
    (addSaleConn ⟨st, none⟩ sdate mid bid sqty sdiscount fail).1.pending = none ∧
    (∀ e, (addSaleConn ⟨st, none⟩ sdate mid bid sqty sdiscount fail).2 =
        Except.error e →
      (addSaleConn ⟨st, none⟩ sdate mid bid sqty sdiscount fail).1 =
        ⟨st, none⟩) ∧
    (∀ t, (addSaleConn ⟨st, none⟩ sdate mid bid sqty sdiscount fail).2 =
        Except.ok t →
      ∃ book, findBook st bid = some book ∧
        (addSaleConn ⟨st, none⟩ sdate mid bid sqty sdiscount fail).1.committed =
          decrementStock bid sqty
            (insertSaleRow sdate mid bid sqty sdiscount
              (book.bprice * sqty - sdiscount) st)) := by
  rcases hm : findMember st mid with _ | m
  · rw [addSaleConn_none_member (c := ⟨st, none⟩) hm]
    exact ⟨rfl, fun e _ => rfl, fun t ht => by cases ht⟩
  · rcases hb : findBook st bid with _ | book
    · rw [addSaleConn_none_book (c := ⟨st, none⟩) hm hb]
      exact ⟨rfl, fun e _ => rfl, fun t ht => by cases ht⟩
    · by_cases hq : book.bstock < sqty
      · rw [addSaleConn_insufficient (c := ⟨st, none⟩) hm hb hq]
        exact ⟨rfl, fun e _ => rfl, fun t ht => by cases ht⟩
      · rcases fail with _ | tf
        · rw [addSaleConn_ok (c := ⟨st, none⟩) hm hb hq]
          refine ⟨rfl, ?_, ?_⟩
          · intro e he
            cases he
          · intro t _
            exact ⟨book, rfl, rfl⟩
        · rw [addSaleConn_fail (c := ⟨st, none⟩) hm hb hq]
          exact ⟨rfl, fun e _ => rfl, fun t ht => by cases ht⟩

/-- Witness for C2: a storage failure at the stock update on the seed store
returns a storage error with the committed store untouched and the
transaction closed. -/
theorem c2_add_sale_atomicity_witness :
    (addSaleConn ⟨initStore, none⟩ "2024-02-01" "M001" "B001" 2 100
      (some TxnFail.atUpdate)).1 = ⟨initStore, none⟩ := by
  have h := c2_add_sale_atomicity initStore "2024-02-01" "M001" "B001" 2 100
    (some TxnFail.atUpdate)
  exact h.2.1 SaleError.storageError rfl

/-- C5: in every reachable store no book's stock is negative, and the stock
decrement of `add_sale` only happens when the stock was at least the
requested quantity immediately before: a successful `add_sale` implies the
looked-up book had `sqty ≤ bstock`. -/
theorem c5_stock_never_negative (st : Store) (h : Reachable st) :
    (∀ b ∈ st.books, 0 ≤ b.bstock) ∧
    (∀ (sdate mid bid : String) (sqty sdiscount t : Int),
      (addSale st sdate mid bid sqty sdiscount).2 = Except.ok t →
      ∃ book, findBook st bid = some book ∧ sqty ≤ book.bstock) := by
  refine ⟨(inv_reachable h).2, ?_⟩
  intro sdate mid bid sqty sdiscount t hok
  rcases hm : findMember st mid with _ | m
  · unfold addSale at hok
    rw [addSaleConn_none_member (c := ⟨st, none⟩) hm] at hok
    cases hok
  · rcases hb : findBook st bid with _ | book
    · unfold addSale at hok
      rw [addSaleConn_none_book (c := ⟨st, none⟩) hm hb] at hok
      cases hok
    · by_cases hq : book.bstock < sqty
      · unfold addSale at hok
        rw [addSaleConn_insufficient (c := ⟨st, none⟩) hm hb hq] at hok
        cases hok
      · exact ⟨book, rfl, not_lt.mp hq⟩

/-- Witness for C5: the invariant applied to the seeded store at book B001. -/
theorem c5_stock_never_negative_witness :
    0 ≤ (Book.mk "B001" "Python Programming" 600 50).bstock := by
  have h := c5_stock_never_negative initStore Reachable.init
  exact h.1 _ (by decide)

/-- C6: updating an existing sale's discount recomputes the stored total as
the book's current price times the sale's original stored quantity minus
the new discount, writes exactly that discount and total back to the sale
row, and touches neither books nor members. -/
theorem c6_update_sale_recompute (st : Store) (sid : Nat) (newDiscount : Int)
    (sale : Sale) (book : Book)
    (hs : findSale st sid = some sale) (hb : findBook st sale.bid = some book)
    (_hd : 0 ≤ newDiscount) :
    (updateSale st sid newDiscount).2 =
      Except.ok (sid, book.bprice * sale.sqty - newDiscount) ∧
    findSale (updateSale st sid newDiscount).1 sid =
      some { sale with sdiscount := newDiscount,
                       stotal := book.bprice * sale.sqty - newDiscount } ∧
    (updateSale st sid newDiscount).1.books = st.books ∧
    (updateSale st sid newDiscount).1.members = st.members := by
  rw [updateSale_ok hs hb]
  refine ⟨rfl, ?_, rfl, rfl⟩
  have hs' : st.sales.find? (fun s => s.sid == sid) = some sale := hs
  exact find?_map_if (fun s => s.sid == sid)
    (fun s => { s with sdiscount := newDiscount,
                       stotal := book.bprice * sale.sqty - newDiscount })
    (fun a => rfl) st.sales sale hs'

/-- Witness for C6: the spec's example — seed sale 3 (B003, price 1200,
quantity 3) with new discount 500 gives total 3100; books untouched. -/
theorem c6_update_sale_recompute_witness :
    (updateSale initStore 3 500).2 = Except.ok (3, 3100) ∧
    (updateSale initStore 3 500).1.books = initStore.books := by
  have h := c6_update_sale_recompute initStore 3 500
    ⟨3, "2024-01-17", "M001", "B003", 3, 200, 3400⟩
    ⟨"B003", "Machine Learning Guide", 1200, 20⟩ rfl rfl (by decide)
  exact ⟨h.1, h.2.2.1⟩

/-- C7 counterexample: the deletion statement of `delete_sale` performs no
existence check — run against sale id 99, which does not exist in the seed
store, it reports success (not a not-found error) and leaves the store
as it was, rather than failing with NotFound as the claim requires. -/
theorem c7_delete_sale_counterexample :
    findSale initStore 99 = none ∧
    deleteSaleBySid initStore 99 = (initStore, Except.ok 99) :=
  ⟨rfl, rfl⟩

/-- C7 amended: `delete_sale` never checks existence of the target id
itself; instead the id is resolved from the displayed listing by a
validated index, so only ids of existing sales ever reach the deletion
statement. An empty listing or an out-of-range choice is rejected (with a
no-records or invalid-choice message, not NotFound) without deleting, and
a valid choice resolves to the sid of an existing sale, which is then
deleted with a success result. -/
theorem c7_delete_sale_defensive_check (st : Store) (choice : Nat) :
    (saleListing st = [] →
      deleteSale st choice = (st, Except.error SaleError.noRecords)) ∧
    (saleListing st ≠ [] → (choice < 1 ∨ (saleListing st).length < choice) →
      deleteSale st choice = (st, Except.error SaleError.invalidChoice)) ∧
    (1 ≤ choice → choice ≤ (saleListing st).length →
      ((saleListing st).getD (choice - 1) (0, "", "")).1 ∈
        st.sales.map Sale.sid ∧
      (deleteSale st choice).1.sales =
        st.sales.filter
          (fun s => !(s.sid == ((saleListing st).getD (choice - 1) (0, "", "")).1)) ∧
      (deleteSale st choice).1.books = st.books ∧
      (deleteSale st choice).1.members = st.members ∧
      (deleteSale st choice).2 =
        Except.ok ((saleListing st).getD (choice - 1) (0, "", "")).1) := by
  refine ⟨?_, ?_, ?_⟩
  · intro h
    unfold deleteSale
    rw [if_pos h]
  · intro h1 h2
    unfold deleteSale
    rw [if_neg h1, if_pos h2]
  · intro h1 h2
    have hne : saleListing st ≠ [] := by
      intro hc
      rw [hc] at h2
      simp only [List.length_nil, Nat.le_zero] at h2
      omega
    have hvalid : ¬ (choice < 1 ∨ (saleListing st).length < choice) := by
      push_neg
      exact ⟨h1, h2⟩
    refine ⟨?_, ?_, ?_, ?_, ?_⟩
    · have hlt : choice - 1 < (saleListing st).length := by omega
      have hget : (saleListing st).getD (choice - 1) (0, "", "") ∈ saleListing st := by
        rw [List.getD_eq_getElem _ _ hlt]
        exact List.getElem_mem hlt
      exact saleListing_sid_mem hget
    all_goals
      unfold deleteSale deleteSaleBySid
      rw [if_neg hne, if_neg hvalid]

/-- Witness for C7's amended statement: choosing entry 1 of the seed store's
listing deletes the existing sale with id 1 and reports success. -/
theorem c7_delete_sale_defensive_check_witness :
    (deleteSale initStore 1).2 = Except.ok 1 ∧
    (1 : Nat) ∈ initStore.sales.map Sale.sid := by
  have h := (c7_delete_sale_defensive_check initStore 1).2.2 (by decide) (by decide)
  exact ⟨h.2.2.2.2, h.1⟩

/-- C8: deleting an existing sale id removes exactly that one row: the
books table (in particular every stock value) and the members table are
untouched, the sale count drops by exactly one, every other sale row
survives, and every surviving row is an original row other than the
deleted one. -/
theorem c8_delete_sale_frame (st : Store) (sid : Nat)
    (hmem : sid ∈ st.sales.map Sale.sid)
    (hnd : (st.sales.map Sale.sid).Nodup) :
    (deleteSaleBySid st sid).1.books = st.books ∧
    (deleteSaleBySid st sid).1.members = st.members ∧
    (deleteSaleBySid st sid).2 = Except.ok sid ∧
    (deleteSaleBySid st sid).1.sales.length + 1 = st.sales.length ∧
    (∀ s ∈ st.sales, s.sid ≠ sid → s ∈ (deleteSaleBySid st sid).1.sales) ∧
    (∀ s ∈ (deleteSaleBySid st sid).1.sales, s ∈ st.sales ∧ s.sid ≠ sid) := by
  refine ⟨rfl, rfl, rfl, length_filter_sid_ne st.sales hnd hmem, ?_, ?_⟩
  · intro s hs hne
    show s ∈ st.sales.filter _
    exact List.mem_filter.mpr ⟨hs, by simpa using hne⟩
  · intro s hs
    have h := List.mem_filter.mp hs
    exact ⟨h.1, by simpa using h.2⟩

/-- Witness for C8: deleting seed sale 2 keeps the books table identical
and shrinks the sales table from 4 rows to 3. -/
theorem c8_delete_sale_frame_witness :
    (deleteSaleBySid initStore 2).1.books = initStore.books ∧
    (deleteSaleBySid initStore 2).1.sales.length + 1 = initStore.sales.length := by
  have h := c8_delete_sale_frame initStore 2 (by decide) (by decide)
  exact ⟨h.1, h.2.2.2.1⟩

/-- C9: the sale report is a pure read (the store is unchanged) producing
one row per sale, ordered by ascending sale id, whose sequence numbers are
exactly 1..N — the 1-based positions in the ordered result, independent of
the sale id values; each report row stems from a sale and each sale yields
a row. -/
theorem c9_report_sequence_numbers (st : Store)
    (href : ∀ s ∈ st.sales, (joinRow st s).isSome = true) :
    applyOp st Op.report = st ∧
    (generateSaleReport st).length = st.sales.length ∧
    (generateSaleReport st).map Prod.fst = List.range' 1 st.sales.length ∧
    (generateSaleReport st).Pairwise (fun p q => p.2.sid ≤ q.2.sid) ∧
    (∀ p ∈ generateSaleReport st, p.2.sid ∈ st.sales.map Sale.sid) ∧
    (∀ s ∈ st.sales, s.sid ∈ (generateSaleReport st).map (fun p => p.2.sid)) := by
  have hperm : List.Perm
      (List.insertionSort (fun a b : Sale => a.sid ≤ b.sid) st.sales) st.sales :=
    List.perm_insertionSort _ _
  have hrefs : ∀ s ∈ List.insertionSort (fun a b : Sale => a.sid ≤ b.sid) st.sales,
      (joinRow st s).isSome = true :=
    fun s hs => href s (hperm.mem_iff.mp hs)
  have hjlen : ((List.insertionSort (fun a b : Sale => a.sid ≤ b.sid) st.sales).filterMap
      (joinRow st)).length = st.sales.length := by
    rw [length_filterMap_of_isSome _ _ hrefs, hperm.length_eq]
  refine ⟨rfl, ?_, ?_, ?_, ?_, ?_⟩
  · unfold generateSaleReport
    rw [numberFrom_length, hjlen]
  · unfold generateSaleReport
    rw [numberFrom_map_fst, hjlen]
  · unfold generateSaleReport
    have hsort : List.Pairwise (fun a b : Sale => a.sid ≤ b.sid)
        (List.insertionSort (fun a b : Sale => a.sid ≤ b.sid) st.sales) :=
      List.sorted_insertionSort _ _
    have hjp : ((List.insertionSort (fun a b : Sale => a.sid ≤ b.sid) st.sales).filterMap
        (joinRow st)).Pairwise (fun a b : ReportRow => a.sid ≤ b.sid) :=
      pairwise_filterMap_of (joinRow st) _ _
        (fun a a' b b' hr ha ha' => by
          rw [joinRow_sid ha, joinRow_sid ha']
          exact hr) _ hsort
    exact numberFrom_pairwise 1 _ hjp
  · intro p hp
    unfold generateSaleReport at hp
    have hp2 : p.2 ∈ (List.insertionSort (fun a b : Sale => a.sid ≤ b.sid) st.sales).filterMap
        (joinRow st) := by
      rw [← numberFrom_map_snd 1 ((List.insertionSort (fun a b : Sale => a.sid ≤ b.sid)
        st.sales).filterMap (joinRow st))]
      exact List.mem_map_of_mem Prod.snd hp
    rcases List.mem_filterMap.mp hp2 with ⟨s, hs, hjs⟩
    rw [joinRow_sid hjs]
    exact List.mem_map.mpr ⟨s, hperm.mem_iff.mp hs, rfl⟩
  · intro s hs
    have hs' : s ∈ List.insertionSort (fun a b : Sale => a.sid ≤ b.sid) st.sales :=
      hperm.mem_iff.mpr hs
    have hsome := href s hs
    rcases hj : joinRow st s with _ | r
    · rw [hj] at hsome
      cases hsome
    · have hrmem : r ∈ (List.insertionSort (fun a b : Sale => a.sid ≤ b.sid) st.sales).filterMap
          (joinRow st) := List.mem_filterMap.mpr ⟨s, hs', hj⟩
      rw [← numberFrom_map_snd 1 ((List.insertionSort (fun a b : Sale => a.sid ≤ b.sid)
        st.sales).filterMap (joinRow st))] at hrmem
      rcases List.mem_map.mp hrmem with ⟨p, hp, hpr⟩
      refine List.mem_map.mpr ⟨p, hp, ?_⟩
      rw [hpr, joinRow_sid hj]

/-- Witness for C9: a store whose sale ids are {1, 3, 4} still reports
sequence numbers exactly 1, 2, 3. -/
theorem c9_report_sequence_numbers_witness :
    (generateSaleReport gapStore).map Prod.fst = List.range' 1 3 := by
  have h := (c9_report_sequence_numbers gapStore (by decide)).2.2.1
  exact h

/-- Witness for C10: quantity -5 against B001 succeeds, raises the stock
from 50 to 55, and is exactly what the menu controller would have rejected. -/
theorem c10_add_sale_no_positivity_check_witness :
    (addSale initStore "2024-02-01" "M001" "B001" (-5) 0).2 =
      Except.ok (-3000) ∧
    findBook (addSale initStore "2024-02-01" "M001" "B001" (-5) 0).1 "B001" =
      some ⟨"B001", "Python Programming", 600, 55⟩ ∧
    menuQtyAccepted (-5) = false := by
  have h := c10_add_sale_no_positivity_check initStore "2024-02-01" "M001" "B001"
    (-5) 0
    ⟨"M001", "Alice", "0912-345678", some "alice@example.com"⟩
    ⟨"B001", "Python Programming", 600, 50⟩ rfl rfl (by decide)
  exact ⟨h.1, h.2.2.1, h.2.2.2.2 (by decide)⟩

end Bookstore
